import Mathlib

/-!
Verification of the `webserver` Go repository: a shallow embedding of its
routing and body-binding core, with theorems settling the frozen claims.

Embedding conventions:
* Go panics and `Logger.Fatalln` aborts are modelled as `Option.none`.
* `http.ResponseWriter` side effects of the named-parameter binder are
  modelled as an ordered list of events (`BindEvent`): each `badRequest`
  call (which writes status 400 and the message as the whole body) becomes
  a `BindEvent.badRequest`, and the final handler invocation becomes a
  `BindEvent.handlerCall` carrying the bound map.
* External collaborators (Go standard library) are modelled from their
  documented behaviour where the repository calls them: `url.Values.Get`
  and `.Has` (first value of a key / key presence), `strconv.Atoi`,
  `strings.ToUpper` (restricted to ASCII, which covers HTTP method
  tokens), `encoding/json` unmarshalling of scalars (Unicode escape
  sequences in string literals are not modelled; no claim depends on
  them), and `http.ServeMux` as described by the spec (most-specific
  pattern wins, absent pattern responds not-found, re-registration of a
  pattern overwrites).
* Go's reflection over a struct type is modelled by an explicit list of
  field descriptors (name, exportedness, scalar kind).
-/

/-! ## Character-list string helpers -/

/-- Test whether the first list is an initial segment of the second. -/
def chPre : List Char → List Char → Bool
  | [], _ => true
  | _ :: _, [] => false
  | a :: as, b :: bs => a == b && chPre as bs

/-- Model of Go `strings.HasPrefix s p`. -/
def strStarts (s p : String) : Bool :=
  chPre p.data s.data

/-- Model of Go `strings.HasSuffix s p`. -/
def strEnds (s p : String) : Bool :=
  chPre p.data.reverse s.data.reverse

/-! ## Parsed URL-encoded body (model of `url.Values` after `url.ParseQuery`) -/

/-- A parsed URL-encoded body: key/value pairs in body order.  This is the
result of `url.ParseQuery` on a well-formed body; both binders consult it
only through `Get` and `Has`. -/
abbrev Query : Type := List (String × String)

/-- Model of `url.Values.Get`: first value for the key, `""` if absent. -/
def queryGet (q : Query) (k : String) : String :=
  match q with
  | [] => ""
  | kv :: rest => if kv.1 == k then kv.2 else queryGet rest k

/-- Model of `url.Values.Has`: whether the key is present. -/
def queryHas (q : Query) (k : String) : Bool :=
  match q with
  | [] => false
  | kv :: rest => kv.1 == k || queryHas rest k

/-! ## Scalar JSON decoding (model of `encoding/json.Unmarshal` at scalar types) -/

/-- The scalar field kinds the binder supports in this development. -/
inductive FieldKind where
  | str
  | int
  | bool
  deriving DecidableEq

/-- A scalar Go value, as stored in a bound record field. -/
inductive ScalarValue where
  | str (s : String)
  | int (n : Int)
  | bool (b : Bool)
  deriving DecidableEq

/-- The Go zero value of each supported field kind. -/
def zeroValue : FieldKind → ScalarValue
  | .str => .str ""
  | .int => .int 0
  | .bool => .bool false

/-- Decode a single JSON string-literal escape character. -/
def escChar (e : Char) : Option Char :=
  if e = '"' then some '"'
  else if e = '\\' then some '\\'
  else if e = '/' then some '/'
  else if e = 'n' then some '\n'
  else if e = 't' then some '\t'
  else if e = 'r' then some '\r'
  else if e = 'b' then some (Char.ofNat 8)
  else if e = 'f' then some (Char.ofNat 12)
  else none

/-- Parse the remainder of a JSON string literal (after the opening quote):
returns the decoded content and the input remaining after the closing
quote.  Unescaped control characters are rejected, as in `encoding/json`. -/
def jsonStrAux : List Char → Option (List Char × List Char)
  | [] => none
  | '"' :: cs => some ([], cs)
  | '\\' :: [] => none
  | '\\' :: e :: cs =>
    match escChar e with
    | some d => (jsonStrAux cs).map (fun p => (d :: p.1, p.2))
    | none => none
  | c :: cs =>
    if c.toNat < 32 then none
    else (jsonStrAux cs).map (fun p => (c :: p.1, p.2))

/-- Model of `json.Unmarshal` into a Go `string`: the whole input must be
one JSON string literal. -/
def jsonParseString (s : String) : Option String :=
  match s.data with
  | '"' :: rest =>
    match jsonStrAux rest with
    | some (content, []) => some (String.mk content)
    | _ => none
  | _ => none

/-- Numeric value of a list of decimal digits. -/
def digitsVal (ds : List Char) : Nat :=
  ds.foldl (fun acc c => acc * 10 + (c.toNat - 48)) 0

/-- Model of `json.Unmarshal` into a Go `int`: the whole input must be a
JSON integer literal (optional minus sign, digits, no leading zero). -/
def jsonParseInt (s : String) : Option Int :=
  match s.data with
  | [] => none
  | c :: rest =>
    let neg : Bool := c = '-'
    let ds : List Char := if c = '-' then rest else c :: rest
    if ds.isEmpty then none
    else if !ds.all Char.isDigit then none
    else if ds.length > 1 && ds.headD 'x' == '0' then none
    else if neg then some (-(digitsVal ds : Int)) else some (digitsVal ds)

/-- Model of `json.Unmarshal` at the scalar kinds used by the struct
binder; `none` is a decode error. -/
def jsonUnmarshal (k : FieldKind) (v : String) : Option ScalarValue :=
  match k with
  | .str => (jsonParseString v).map ScalarValue.str
  | .int => (jsonParseInt v).map ScalarValue.int
  | .bool =>
    if v == "true" then some (.bool true)
    else if v == "false" then some (.bool false)
    else none

/-! ## Struct binder (`NewURLBodyHandler`) -/

/-- A reflected struct field: declared name, exportedness, scalar kind.
Models one entry of the target type's reflected field table. -/
structure GoField where
  name : String
  exported : Bool
  kind : FieldKind
  deriving DecidableEq

/-- The quoting step of the binder: for a string-kinded field the raw value
is wrapped in quotes before decoding; other kinds decode the value as-is. -/
def wrapValue (k : FieldKind) (v : String) : String :=
  if k = .str then "\"" ++ v ++ "\"" else v

/-- Per-field step of the struct binder's loop body: an unexported field is
skipped (keeping the zero value placed there by `new(T)`); an exported
field looks up the body value by the declared field name (`""` if absent),
quotes it when string-kinded, and JSON-decodes it; a decode error is a
panic (`none`). -/
def bindField (q : Query) (f : GoField) : Option ScalarValue :=
  if f.exported = false then some (zeroValue f.kind)
  else jsonUnmarshal f.kind (wrapValue f.kind (queryGet q f.name))

/-- The struct binder's per-request loop over the target type's fields, in
declaration order; `some record` is the populated instance passed to the
caller's handler, `none` is a panic.  The binder writes nothing to the
response before the handler runs. -/
def bindStruct (fields : List GoField) (q : Query) : Option (List ScalarValue) :=
  match fields with
  | [] => some []
  | f :: fs =>
    match bindField q f with
    | none => none
    | some v =>
      match bindStruct fs q with
      | none => none
      | some vs => some (v :: vs)

/-- The reflective kind of a Go type, as consulted by the binder's
registration check. -/
inductive GoKind where
  | structKind
  | stringKind
  | intKind
  | boolKind
  deriving DecidableEq

/-- A Go type as the binder sees it through reflection: either a flat
struct with scalar fields, or a non-struct scalar type. -/
inductive GoType where
  | structT (fields : List GoField)
  | stringT
  | intT
  | boolT
  deriving DecidableEq

/-- Model of `reflect.TypeFor[T]().Kind()`. -/
def goKind : GoType → GoKind
  | .structT _ => .structKind
  | .stringT => .stringKind
  | .intT => .intKind
  | .boolT => .boolKind

/-- Field list of a struct type (used only after the kind check passes). -/
def structFields : GoType → List GoField
  | .structT fields => fields
  | _ => []

/-- Model of `NewURLBodyHandler[T]`: at registration time the target type's
kind is checked, and a non-struct kind panics (`none`); otherwise the
registered per-request handler is exactly the struct binder over the
type's fields, with no further kind check. -/
def newURLBodyHandler (t : GoType) : Option (Query → Option (List ScalarValue)) :=
  if goKind t ≠ GoKind.structKind then none
  else some (bindStruct (structFields t))

/-! ## Parameter capability and named-parameter binder (`NewHandlerURLBody`) -/

/-- Model of the `Parameter` interface: name, required flag, validity
predicate and conversion function.  The value type `α` stands for Go's
`any`. -/
structure Parameter (α : Type) where
  name : String
  required : Bool
  valid : String → Bool
  value : String → α

/-- Model of Go `strconv.Atoi`: optional sign followed by at least one
digit; `none` is a parse error. -/
def atoi? (s : String) : Option Int :=
  match s.data with
  | [] => none
  | c :: rest =>
    let neg : Bool := c = '-'
    let ds : List Char := if c = '-' || c = '+' then rest else c :: rest
    if ds.isEmpty then none
    else if !ds.all Char.isDigit then none
    else if neg then some (-(digitsVal ds : Int)) else some (digitsVal ds)

/-- The heterogeneous values produced by the built-in parameter variants
(`any` in Go). -/
inductive GoAny where
  | str (s : String)
  | int (n : Int)
  deriving DecidableEq

/-- Model of `NewStringParameter`: always valid, identity conversion. -/
def NewStringParameter (name : String) (required : Bool) : Parameter GoAny :=
  { name := name, required := required,
    valid := fun _ => true, value := fun v => .str v }

/-- Model of `NewIntParameter`: valid iff `strconv.Atoi` succeeds; the
conversion reuses `Atoi` and ignores its error (yielding 0 on failure,
as `Atoi` does). -/
def NewIntParameter (name : String) (required : Bool) : Parameter GoAny :=
  { name := name, required := required,
    valid := fun v => (atoi? v).isSome,
    value := fun v => .int ((atoi? v).getD 0) }

/-- Model of `NewCustomParameter`: caller-supplied predicate and converter. -/
def NewCustomParameter {α : Type} (name : String) (required : Bool)
    (valid : String → Bool) (value : String → α) : Parameter α :=
  { name := name, required := required, valid := valid, value := value }

/-- Observable events of one `NewHandlerURLBody` request: `badRequest msg`
is a call of `webServer.badRequest` (which writes status 400 and `msg` as
the whole response body); `handlerCall values` is the final invocation of
the caller's handler with the bound map. -/
inductive BindEvent (α : Type) where
  | badRequest (body : String)
  | handlerCall (values : List (String × α))
  deriving DecidableEq

/-- Recogniser for the handler-invocation event. -/
def isHandlerCall {α : Type} : BindEvent α → Bool
  | .handlerCall _ => true
  | _ => false

/-- Model of Go map assignment `m[k] = v`: overwrite the key's entry if
present, otherwise add one. -/
def mapInsert {β : Type _} : List (String × β) → String → β → List (String × β)
  | [], k, v => [(k, v)]
  | kv :: rest, k, v =>
    if kv.1 == k then (k, v) :: rest else kv :: mapInsert rest k v

/-- Model of Go map lookup `m[k]` (presence-aware). -/
def mapLookup {β : Type _} : List (String × β) → String → Option β
  | [], _ => none
  | kv :: rest, k => if kv.1 == k then some kv.2 else mapLookup rest k

/-- One iteration of `NewHandlerURLBody`'s parameter loop, threading the
events written so far and the map built so far: an absent name emits the
"is required" 400 when the parameter is required and moves on without
inserting; a present name emits the "is invalid" 400 when validation
fails and then inserts the converted value regardless. -/
def bindParamStep {α : Type} (q : Query)
    (st : List (BindEvent α) × List (String × α)) (p : Parameter α) :
    List (BindEvent α) × List (String × α) :=
  if queryHas q p.name = false then
    if p.required then (st.1 ++ [.badRequest (p.name ++ " is required")], st.2)
    else st
  else
    let v := queryGet q p.name
    let evs :=
      if p.valid v then st.1
      else st.1 ++ [.badRequest (v ++ " is invalid for parameter " ++ p.name)]
    (evs, mapInsert st.2 p.name (p.value v))

/-- The parameter loop of `NewHandlerURLBody` over the whole list, in list
order, starting from no events and an empty map. -/
def bindParamsLoop {α : Type} (params : List (Parameter α)) (q : Query) :
    List (BindEvent α) × List (String × α) :=
  params.foldl (bindParamStep q) ([], [])

/-- Model of the handler registered by `NewHandlerURLBody`, as the event
trace of one request: the loop's 400 events in order, then exactly one
invocation of the caller's handler with the (possibly partial) map. -/
def NewHandlerURLBody {α : Type} (params : List (Parameter α)) (q : Query) :
    List (BindEvent α) :=
  (bindParamsLoop params q).1 ++ [.handlerCall (bindParamsLoop params q).2]

/-- The 400 event (if any) that one parameter contributes, determined by
the body alone. -/
def paramEvent {α : Type} (q : Query) (p : Parameter α) : Option (BindEvent α) :=
  if queryHas q p.name = false then
    if p.required then some (.badRequest (p.name ++ " is required")) else none
  else if p.valid (queryGet q p.name) then none
  else some (.badRequest (queryGet q p.name ++ " is invalid for parameter " ++ p.name))

/-! ## Method router and dispatcher -/

/-- The ten route buckets of a `WebServer`: one per enumerated HTTP
method, plus the catch-all `custom` bucket. -/
inductive Bucket where
  | get
  | head
  | post
  | put
  | patch
  | delete
  | connect
  | options
  | trace
  | custom
  deriving DecidableEq

/-- The nine canonical uppercase HTTP method tokens with dedicated buckets. -/
def canonicalMethods : List String :=
  ["GET", "HEAD", "POST", "PUT", "PATCH", "DELETE", "CONNECT", "OPTIONS", "TRACE"]

/-- The `switch` shared by `NewHandleFunc`, `NewHandler` and `mainHandler`:
compare the token against the nine method constants in order, falling
through to the catch-all bucket. -/
def selectBucket (m : String) : Bucket :=
  if m == "GET" then .get
  else if m == "HEAD" then .head
  else if m == "POST" then .post
  else if m == "PUT" then .put
  else if m == "PATCH" then .patch
  else if m == "DELETE" then .delete
  else if m == "CONNECT" then .connect
  else if m == "OPTIONS" then .options
  else if m == "TRACE" then .trace
  else .custom

/-- ASCII uppercase of one character (the fragment of `strings.ToUpper`
exercised by method tokens). -/
def upperChar (c : Char) : Char :=
  if 97 ≤ c.toNat ∧ c.toNat ≤ 122 then Char.ofNat (c.toNat - 32) else c

/-- Model of `strings.ToUpper` on ASCII strings. -/
def upperStr (s : String) : String :=
  String.mk (s.data.map upperChar)

/-- The bucket `mainHandler` dispatches to: the request's method token is
uppercased before the bucket comparison. -/
def dispatchBucket (m : String) : Bucket :=
  selectBucket (upperStr m)

/-- Model of `http.ServeMux` pattern matching for the pattern forms this
server registers: a pattern ending in a slash matches every path it
prefixes, any other pattern matches exactly. -/
def patternMatches (pattern path : String) : Bool :=
  if strEnds pattern "/" then strStarts path pattern else pattern == path

/-- Most-specific-wins selection among matching registrations: the entry
with the longest pattern (the first such on a tie). -/
def pickLongest {H : Type} : List (String × H) → Option (String × H)
  | [] => none
  | kv :: rest =>
    match pickLongest rest with
    | none => some kv
    | some best =>
      if best.1.data.length > kv.1.data.length then some best else some kv

/-- Model of `ServeMux.ServeHTTP` routing: serve the handler of the most
specific matching pattern, or respond not-found (`none`). -/
def muxServe {H : Type} (mux : List (String × H)) (path : String) : Option H :=
  (pickLongest (mux.filter (fun kv => patternMatches kv.1 path))).map (fun kv => kv.2)

/-- The part of an HTTP request the dispatcher inspects. -/
structure Request where
  method : String
  path : String

/-- The `WebServer` state the dispatcher reads: the ten per-method pattern
routers (the ten `*http.ServeMux` fields, here indexed by `Bucket`) and
the ordered middleware list.  Handlers have abstract type `H`. -/
structure WebServer (H : Type) where
  muxes : Bucket → List (String × H)
  middleware : List (Request → Bool)

/-- Model of `NewWebServer`: every bucket starts empty except the GET
bucket, into which the server's file handler is registered under the
pattern "/"; the middleware list starts empty. -/
def newWebServer {H : Type} (fileHandler : H) : WebServer H :=
  { muxes := fun b => if b = .get then [("/", fileHandler)] else [],
    middleware := [] }

/-- Model of `NewHandleFunc`: the method token selects a bucket by the
case-sensitive nine-way switch (unrecognised tokens land in the catch-all
bucket) and the pattern/handler pair is registered there. -/
def NewHandleFunc {H : Type} (ws : WebServer H) (method pattern : String) (h : H) :
    WebServer H :=
  { ws with
    muxes := fun b =>
      if b = selectBucket method then mapInsert (ws.muxes b) pattern h
      else ws.muxes b }

/-- Model of `NewMiddleware`: append the guard to the ordered list. -/
def NewMiddleware {H : Type} (ws : WebServer H) (m : Request → Bool) : WebServer H :=
  { ws with middleware := ws.middleware ++ [m] }

/-- Run the middleware chain: returns the results of the guards that were
actually executed, in order, and whether the chain completed (a guard
returning false stops the chain immediately). -/
def runGuards (guards : List (Request → Bool)) (req : Request) : List Bool × Bool :=
  match guards with
  | [] => ([], true)
  | g :: gs =>
    if g req then
      let rest := runGuards gs req
      (true :: rest.1, rest.2)
    else ([false], false)

/-- Outcome of `mainHandler` for one request: either the middleware chain
stopped it (recording how many guards ran, with no routing performed), or
it was routed, invoking the matched handler or responding not-found. -/
inductive DispatchResult (H : Type) where
  | stopped (guardsRan : Nat)
  | routed (result : Option H)
  deriving DecidableEq

/-- Model of `mainHandler`, the single entry point: run the guards in
registration order, returning immediately if one returns false; otherwise
uppercase the method token, select the bucket and delegate to its pattern
router. -/
def mainHandler {H : Type} (ws : WebServer H) (req : Request) : DispatchResult H :=
  let gr := runGuards ws.middleware req
  if gr.2 then .routed (muxServe (ws.muxes (dispatchBucket req.method)) req.path)
  else .stopped gr.1.length

/-! ## Map and loop lemmas -/

theorem mapLookup_insert_self {β : Type _} (m : List (String × β)) (k : String) (v : β) :
    mapLookup (mapInsert m k v) k = some v := by
  induction m with
  | nil => simp [mapInsert, mapLookup]
  | cons kv rest ih =>
    by_cases h : kv.1 = k
    · simp [mapInsert, h, mapLookup]
    · simp only [mapInsert, beq_iff_eq, h, if_false]
      simpa [mapLookup, h] using ih

theorem mapLookup_insert_ne {β : Type _} (m : List (String × β)) (k' k : String) (v : β)
    (h : k' ≠ k) : mapLookup (mapInsert m k' v) k = mapLookup m k := by
  induction m with
  | nil => simp [mapInsert, mapLookup, h]
  | cons kv rest ih =>
    by_cases hk : kv.1 = k'
    · simp [mapInsert, hk, mapLookup, h]
    · simp only [mapInsert, beq_iff_eq, hk, if_false]
      by_cases hk2 : kv.1 = k
      · simp [mapLookup, hk2]
      · simpa [mapLookup, hk2] using ih

theorem bindParamStep_fst {α : Type} (q : Query)
    (st : List (BindEvent α) × List (String × α)) (p : Parameter α) :
    (bindParamStep q st p).1 = st.1 ++ (paramEvent q p).toList := by
  simp only [bindParamStep, paramEvent]
  by_cases h1 : queryHas q p.name = false
  · by_cases h2 : p.required
    · simp [h1, h2]
    · simp [h1, h2]
  · by_cases h3 : p.valid (queryGet q p.name)
    · simp [h1, h3]
    · simp [h1, h3]

theorem bindParamStep_snd {α : Type} (q : Query)
    (st : List (BindEvent α) × List (String × α)) (p : Parameter α) :
    (bindParamStep q st p).2 =
      if queryHas q p.name = false then st.2
      else mapInsert st.2 p.name (p.value (queryGet q p.name)) := by
  simp only [bindParamStep]
  by_cases h1 : queryHas q p.name = false
  · by_cases h2 : p.required
    · simp [h1, h2]
    · simp [h1, h2]
  · by_cases h3 : p.valid (queryGet q p.name)
    · simp [h1, h3]
    · simp [h1, h3]

theorem loop_events {α : Type} (q : Query) (params : List (Parameter α))
    (st : List (BindEvent α) × List (String × α)) :
    (params.foldl (bindParamStep q) st).1 = st.1 ++ params.filterMap (paramEvent q) := by
  induction params generalizing st with
  | nil => simp
  | cons p rest ih =>
    rw [List.foldl_cons, ih, List.filterMap_cons, bindParamStep_fst]
    cases hev : paramEvent q p <;> simp [hev]

theorem loop_map_absent {α : Type} (q : Query) (params : List (Parameter α)) :
    ∀ (st : List (BindEvent α) × List (String × α)) (k : String),
    queryHas q k = false → mapLookup st.2 k = none →
    mapLookup (params.foldl (bindParamStep q) st).2 k = none := by
  induction params with
  | nil => intro st k _ h; exact h
  | cons p rest ih =>
    intro st k hq hst
    rw [List.foldl_cons]
    apply ih _ k hq
    rw [bindParamStep_snd]
    by_cases h1 : queryHas q p.name = false
    · simp [h1, hst]
    · have hne : p.name ≠ k := by
        intro he
        rw [he] at h1
        exact h1 hq
      rw [if_neg h1, mapLookup_insert_ne _ _ _ _ hne]
      exact hst

theorem loop_map_keeps {α : Type} (q : Query) (p : Parameter α)
    (params : List (Parameter α)) :
    ∀ (st : List (BindEvent α) × List (String × α)),
    (∀ r ∈ params, r.name = p.name → r = p) →
    queryHas q p.name = true →
    mapLookup st.2 p.name = some (p.value (queryGet q p.name)) →
    mapLookup (params.foldl (bindParamStep q) st).2 p.name
      = some (p.value (queryGet q p.name)) := by
  induction params with
  | nil => intro st _ _ h; exact h
  | cons r rest ih =>
    intro st huniq hq hst
    rw [List.foldl_cons]
    apply ih _ (fun r' hr' => huniq r' (List.mem_cons_of_mem _ hr')) hq
    rw [bindParamStep_snd]
    by_cases h1 : queryHas q r.name = false
    · simp [h1, hst]
    · by_cases h2 : r.name = p.name
      · have hrp : r = p := huniq r (List.mem_cons_self _ _) h2
        subst hrp
        rw [if_neg h1]
        exact mapLookup_insert_self _ _ _
      · rw [if_neg h1, mapLookup_insert_ne _ _ _ _ h2]
        exact hst

theorem paramEvent_not_handlerCall {α : Type} (q : Query) (p : Parameter α)
    (e : BindEvent α) (h : paramEvent q p = some e) : isHandlerCall e = false := by
  simp only [paramEvent] at h
  by_cases h1 : queryHas q p.name = false
  · rw [if_pos h1] at h
    by_cases h2 : p.required = true
    · rw [if_pos h2] at h
      cases h
      rfl
    · rw [if_neg h2] at h
      cases h
  · rw [if_neg h1] at h
    by_cases h3 : p.valid (queryGet q p.name) = true
    · rw [if_pos h3] at h
      cases h
    · rw [if_neg h3] at h
      cases h
      rfl

/-! ## Claims C2, C3, C4: the named-parameter binder -/

/-- Claim C3 (confirmed): when a required parameter is absent from the
body, `NewHandlerURLBody` writes an HTTP 400 whose body is exactly
"<name> is required", inserts nothing under that name in the resulting
map, and the loop continues with the remaining parameters in list order
instead of aborting. -/
theorem claim_C3_theorem {α : Type} (params : List (Parameter α)) (q : Query)
    (p : Parameter α) (hmem : p ∈ params) (hreq : p.required = true)
    (habs : queryHas q p.name = false) :
    BindEvent.badRequest (p.name ++ " is required") ∈ NewHandlerURLBody params q ∧
    mapLookup (bindParamsLoop params q).2 p.name = none ∧
    ∀ (rest : List (Parameter α)) (st : List (BindEvent α) × List (String × α)),
      List.foldl (bindParamStep q) st (p :: rest) =
        List.foldl (bindParamStep q)
          (st.1 ++ [BindEvent.badRequest (p.name ++ " is required")], st.2) rest := by
  refine ⟨?_, ?_, ?_⟩
  · have hev : paramEvent q p = some (.badRequest (p.name ++ " is required")) := by
      simp [paramEvent, habs, hreq]
    have h1 : (bindParamsLoop params q).1 = params.filterMap (paramEvent q) := by
      simpa using loop_events q params ([], [])
    unfold NewHandlerURLBody
    rw [h1]
    exact List.mem_append.mpr (Or.inl (List.mem_filterMap.mpr ⟨p, hmem, hev⟩))
  · exact loop_map_absent q params ([], []) p.name habs rfl
  · intro rest st
    rw [List.foldl_cons]
    congr 1
    simp [bindParamStep, habs, hreq]

/-- Witness for C3 at a concrete required string parameter and empty body. -/
theorem claim_C3_witness :
    BindEvent.badRequest ("name" ++ " is required")
      ∈ NewHandlerURLBody [NewStringParameter "name" true] ([] : Query) ∧
    mapLookup (bindParamsLoop [NewStringParameter "name" true] ([] : Query)).2 "name"
      = none :=
  ⟨(claim_C3_theorem [NewStringParameter "name" true] [] (NewStringParameter "name" true)
      (List.mem_singleton.mpr rfl) rfl rfl).1,
   (claim_C3_theorem [NewStringParameter "name" true] [] (NewStringParameter "name" true)
      (List.mem_singleton.mpr rfl) rfl rfl).2.1⟩

/-- Claim C2, amended part (corrected): when a parameter is present with an
invalid value, `NewHandlerURLBody` writes an HTTP 400 whose body is exactly
"<value> is invalid for parameter <name>", but — contrary to the claim —
it still inserts the converted value under the parameter's name (there is
no early exit after the 400). -/
theorem claim_C2_theorem {α : Type} (params : List (Parameter α)) (q : Query)
    (p : Parameter α) (hmem : p ∈ params)
    (hhas : queryHas q p.name = true)
    (hinv : p.valid (queryGet q p.name) = false)
    (huniq : ∀ r ∈ params, r.name = p.name → r = p) :
    BindEvent.badRequest (queryGet q p.name ++ " is invalid for parameter " ++ p.name)
      ∈ NewHandlerURLBody params q ∧
    mapLookup (bindParamsLoop params q).2 p.name
      = some (p.value (queryGet q p.name)) := by
  constructor
  · have hev : paramEvent q p
        = some (.badRequest (queryGet q p.name ++ " is invalid for parameter " ++ p.name)) := by
      simp [paramEvent, hhas, hinv]
    have h1 : (bindParamsLoop params q).1 = params.filterMap (paramEvent q) := by
      simpa using loop_events q params ([], [])
    unfold NewHandlerURLBody
    rw [h1]
    exact List.mem_append.mpr (Or.inl (List.mem_filterMap.mpr ⟨p, hmem, hev⟩))
  · obtain ⟨l1, l2, rfl⟩ := List.append_of_mem hmem
    unfold bindParamsLoop
    rw [List.foldl_append, List.foldl_cons]
    apply loop_map_keeps q p l2 _ (fun r hr h => huniq r (by simp [hr]) h) hhas
    rw [bindParamStep_snd, if_neg (by simp [hhas])]
    exact mapLookup_insert_self _ _ _

/-- Counterexample to C2 as stated: with the single required integer
parameter "age" and body "age=abc", validation fails, yet the map passed
to the handler binds "age" to the converted value 0 — the claim's
"inserts nothing under p's name" is false. -/
theorem claim_C2_counterexample :
    mapLookup (bindParamsLoop [NewIntParameter "age" true] [("age", "abc")]).2 "age"
      = some (GoAny.int 0) ∧
    BindEvent.badRequest "abc is invalid for parameter age"
      ∈ NewHandlerURLBody [NewIntParameter "age" true] [("age", "abc")] := by
  constructor
  · rfl
  · decide

/-- Witness for the amended C2 at the concrete scenario of the spec's §8:
parameter "age" (required, integer) with body "age=abc". -/
theorem claim_C2_witness :
    BindEvent.badRequest ("abc" ++ " is invalid for parameter " ++ "age")
      ∈ NewHandlerURLBody [NewIntParameter "age" true] [("age", "abc")] ∧
    mapLookup (bindParamsLoop [NewIntParameter "age" true] [("age", "abc")]).2 "age"
      = some ((NewIntParameter "age" true).value "abc") := by
  have h := claim_C2_theorem [NewIntParameter "age" true] [("age", "abc")]
    (NewIntParameter "age" true) (List.mem_singleton.mpr rfl) rfl rfl
    (by intro r hr _; simpa using hr)
  exact h

/-- Claim C4 (confirmed): `NewHandlerURLBody` invokes the caller's handler
exactly once per request, as the last observable event, with the (possibly
partial) bound map — regardless of any 400s written before. -/
theorem claim_C4_theorem {α : Type} (params : List (Parameter α)) (q : Query) :
    (NewHandlerURLBody params q).countP isHandlerCall = 1 ∧
    (NewHandlerURLBody params q).getLast? =
      some (BindEvent.handlerCall (bindParamsLoop params q).2) := by
  constructor
  · unfold NewHandlerURLBody
    rw [List.countP_append]
    have h1 : (bindParamsLoop params q).1 = params.filterMap (paramEvent q) := by
      simpa using loop_events q params ([], [])
    have h0 : (bindParamsLoop params q).1.countP isHandlerCall = 0 := by
      rw [h1, List.countP_eq_zero]
      intro e he
      obtain ⟨p, hp, hev⟩ := List.mem_filterMap.mp he
      simp [paramEvent_not_handlerCall q p e hev]
    rw [h0]
    rfl
  · unfold NewHandlerURLBody
    exact List.getLast?_concat _

/-! ## Claim C5: middleware short-circuit -/

theorem runGuards_stop (req : Request) :
    ∀ (gs : List (Request → Bool)) (i : Nat) (g : Request → Bool),
    gs.get? i = some g → g req = false →
    (∀ j, j < i → ∀ g', gs.get? j = some g' → g' req = true) →
    (runGuards gs req).1 = (gs.take (i + 1)).map (fun m => m req) ∧
    (runGuards gs req).2 = false := by
  intro gs
  induction gs with
  | nil => intro i g hget _ _; simp at hget
  | cons g0 rest ih =>
    intro i g hget hstop hbefore
    cases i with
    | zero =>
      rw [List.get?_cons_zero, Option.some.injEq] at hget
      subst hget
      simp [runGuards, hstop]
    | succ n =>
      have h0 : g0 req = true := hbefore 0 (Nat.succ_pos n) g0 rfl
      rw [List.get?_cons_succ] at hget
      have hrec := ih n g hget hstop
        (fun j hj g' hg' => hbefore (j + 1) (Nat.succ_lt_succ hj) g' hg')
      constructor
      · simp [runGuards, h0, hrec.1]
      · simp [runGuards, h0, hrec.2]

/-- Claim C5 (confirmed): `mainHandler` runs the registered guards in
order; when guard `i` returns false, exactly guards `0..i` have run (the
executed results are those of the first `i+1` guards) and the request is
stopped with no bucket routing performed. -/
theorem claim_C5_theorem {H : Type} (ws : WebServer H) (req : Request) (i : Nat)
    (g : Request → Bool) (hget : ws.middleware.get? i = some g)
    (hstop : g req = false)
    (hbefore : ∀ j, j < i → ∀ g', ws.middleware.get? j = some g' → g' req = true) :
    (runGuards ws.middleware req).1 = (ws.middleware.take (i + 1)).map (fun m => m req) ∧
    mainHandler ws req = DispatchResult.stopped (i + 1) := by
  have h := runGuards_stop req ws.middleware i g hget hstop hbefore
  have hlen : i < ws.middleware.length := by
    rcases List.get?_eq_some.mp hget with ⟨h', _⟩
    exact h'
  refine ⟨h.1, ?_⟩
  simp only [mainHandler, h.2, Bool.false_eq_true, if_false]
  rw [h.1]
  simp [List.length_take, Nat.min_eq_left (Nat.succ_le_of_lt hlen)]

/-- A guard that always continues the chain. -/
def guardTrue : Request → Bool := fun _ => true

/-- A guard that always stops the chain. -/
def guardFalse : Request → Bool := fun _ => false

/-- A server with three guards: continue, stop, continue. -/
def srvC5 : WebServer Nat :=
  NewMiddleware (NewMiddleware (NewMiddleware (newWebServer 0) guardTrue) guardFalse) guardTrue

/-- A sample request. -/
def reqC5 : Request := { method := "GET", path := "/" }

/-- Witness for C5: with guards [continue, stop, continue], exactly the
first two guards run and the request is stopped before routing. -/
theorem claim_C5_witness :
    (runGuards srvC5.middleware reqC5).1 = (srvC5.middleware.take 2).map (fun m => m reqC5) ∧
    mainHandler srvC5 reqC5 = DispatchResult.stopped 2 :=
  claim_C5_theorem srvC5 reqC5 1 guardFalse rfl rfl (by
    intro j hj g' hg'
    obtain rfl : j = 0 := Nat.lt_one_iff.mp hj
    have hsome : some guardTrue = some g' := hg'
    obtain rfl : g' = guardTrue := (Option.some.inj hsome).symm
    rfl)

/-! ## Claims C6, C10: method-token handling at dispatch and registration -/

/-- Claim C6 (confirmed): `mainHandler` uppercases the method token before
bucket selection, so tokens equal up to ASCII case dispatch to the same
bucket, and any token whose uppercase form is not one of the nine
enumerated methods selects the catch-all bucket (bucket selection is
total, so no token is an error). -/
theorem claim_C6_theorem :
    (∀ m₁ m₂ : String, upperStr m₁ = upperStr m₂ → dispatchBucket m₁ = dispatchBucket m₂) ∧
    (∀ m : String, upperStr m ∉ canonicalMethods → dispatchBucket m = Bucket.custom) := by
  constructor
  · intro m₁ m₂ h
    unfold dispatchBucket
    rw [h]
  · intro m hm
    simp only [canonicalMethods, List.mem_cons, List.not_mem_nil, or_false] at hm
    push_neg at hm
    obtain ⟨h1, h2, h3, h4, h5, h6, h7, h8, h9⟩ := hm
    simp [dispatchBucket, selectBucket, h1, h2, h3, h4, h5, h6, h7, h8, h9]

/-- Witness for C6: "get" and "GeT" dispatch to the same bucket, and
"brew" (uppercase "BREW", not an enumerated method) dispatches to the
catch-all bucket. -/
theorem claim_C6_witness :
    dispatchBucket "get" = dispatchBucket "GeT" ∧ dispatchBucket "brew" = Bucket.custom :=
  ⟨claim_C6_theorem.1 "get" "GeT" (by decide), claim_C6_theorem.2 "brew" (by decide)⟩

/-- Claim C10 (confirmed): `NewHandleFunc` matches the method token
case-sensitively, so registering under "get" places the route in the
catch-all bucket and leaves the GET bucket with only the file handler;
a request whose method uppercases to "GET" is dispatched to the GET
bucket and therefore never reaches that route. -/
theorem claim_C10_theorem {H : Type} (fileH h : H) (P path m : String)
    (hm : upperStr m = "GET") (hne : h ≠ fileH) :
    (NewHandleFunc (newWebServer fileH) "get" P h).muxes Bucket.custom = [(P, h)] ∧
    (NewHandleFunc (newWebServer fileH) "get" P h).muxes Bucket.get = [("/", fileH)] ∧
    mainHandler (NewHandleFunc (newWebServer fileH) "get" P h) ⟨m, path⟩
      ≠ DispatchResult.routed (some h) := by
  have hsel : selectBucket "get" = Bucket.custom := by decide
  refine ⟨?_, ?_, ?_⟩
  · simp [NewHandleFunc, newWebServer, hsel, mapInsert]
  · simp [NewHandleFunc, newWebServer, hsel]
  · have hget : dispatchBucket m = Bucket.get := by
      rw [dispatchBucket, hm]
      decide
    have hrun : mainHandler (NewHandleFunc (newWebServer fileH) "get" P h) ⟨m, path⟩
        = DispatchResult.routed (muxServe [("/", fileH)] path) := by
      simp [mainHandler, runGuards, NewHandleFunc, newWebServer, hget, hsel]
    rw [hrun]
    have hserve : muxServe [("/", fileH)] path ≠ some h := by
      unfold muxServe
      cases hpm : patternMatches "/" path
      · simp [hpm, pickLongest]
      · simp [hpm, pickLongest]
        exact fun hc => hne hc.symm
    intro hc
    rw [DispatchResult.routed.injEq] at hc
    exact hserve hc

/-- Witness for C10: registering "/x" under method token "get" and
requesting "/x" with method "get" does not invoke the registered handler. -/
theorem claim_C10_witness :
    (NewHandleFunc (newWebServer (0 : Nat)) "get" "/x" 1).muxes Bucket.custom = [("/x", 1)] ∧
    (NewHandleFunc (newWebServer (0 : Nat)) "get" "/x" 1).muxes Bucket.get = [("/", 0)] ∧
    mainHandler (NewHandleFunc (newWebServer (0 : Nat)) "get" "/x" 1) ⟨"get", "/x"⟩
      ≠ DispatchResult.routed (some 1) :=
  claim_C10_theorem 0 1 "/x" "/x" "get" (by decide) (by decide)

/-! ## Claim C7: registration followed by dispatch -/

theorem chPre_single (a : Char) (l : List Char) :
    chPre [a] l = true ↔ ∃ t, l = a :: t := by
  cases l with
  | nil => simp [chPre]
  | cons b bs =>
    simp only [chPre, Bool.and_eq_true, beq_iff_eq]
    constructor
    · intro h
      exact ⟨bs, by rw [h.1]⟩
    · intro ⟨t, ht⟩
      rw [List.cons.injEq] at ht
      exact ⟨ht.1.symm, trivial⟩

theorem strStarts_slash (s : String) (h : strStarts s "/" = true) :
    ∃ t, s.data = '/' :: t := by
  unfold strStarts at h
  exact (chPre_single '/' s.data).mp h

theorem strEnds_slash (s : String) (h : strEnds s "/" = true) :
    ∃ t, s.data.reverse = '/' :: t := by
  unfold strEnds at h
  exact (chPre_single '/' s.data.reverse).mp h

theorem string_eq_slash (P : String) (h : P.data = ['/']) : P = "/" := by
  cases P with
  | mk d =>
    have hd : d = ['/'] := h
    rw [hd]

/-- A non-root pattern that matches a slash-rooted path has length at
least two, hence beats the root pattern "/" in most-specific selection. -/
theorem pattern_len_gt_one (P path : String) (hP : P ≠ "/")
    (hm : patternMatches P path = true) (hs : strStarts path "/" = true) :
    1 < P.data.length := by
  unfold patternMatches at hm
  by_cases he : strEnds P "/" = true
  · obtain ⟨t, ht⟩ := strEnds_slash P he
    have hlen : P.data.length = t.length + 1 := by
      rw [← List.length_reverse, ht, List.length_cons]
    rcases t with _ | ⟨c, t'⟩
    · exfalso
      apply hP
      apply string_eq_slash
      calc P.data = P.data.reverse.reverse := (List.reverse_reverse _).symm
        _ = ['/'] := by rw [ht]; rfl
    · rw [hlen]
      simp
  · rw [if_neg he, beq_iff_eq] at hm
    subst hm
    obtain ⟨t, ht⟩ := strStarts_slash P hs
    rcases t with _ | ⟨c, t'⟩
    · exact absurd (string_eq_slash P ht) hP
    · rw [ht]
      simp

/-- In the GET bucket, a freshly registered non-root pattern that matches
the path wins the most-specific selection against the pre-registered file
handler at "/". -/
theorem muxServe_two {H : Type} (fileH h : H) (P path : String) (hP : P ≠ "/")
    (hm : patternMatches P path = true) :
    muxServe [("/", fileH), (P, h)] path = some h := by
  unfold muxServe
  cases hpm : patternMatches "/" path
  · simp [hpm, hm, pickLongest]
  · have hends : strEnds "/" "/" = true := by decide
    have hs : strStarts path "/" = true := by
      unfold patternMatches at hpm
      rw [if_pos hends] at hpm
      exact hpm
    have hlen : 1 < P.length := pattern_len_gt_one P path hP hm hs
    simp only [List.filter, hpm, hm]
    simp [pickLongest, hlen]

/-- Claim C7, amended (corrected): after registering (M, P, h) on a fresh
server, a request with method M and a path matching P is routed to exactly
h, provided registration and dispatch agree on M's bucket (M is one of the
nine canonical uppercase tokens, or its uppercase form is not canonical);
and a request with a second method M2 whose bucket holds no registration
(neither M's bucket nor the GET bucket, which always holds the file
handler) is routed to not-found. -/
theorem claim_C7_theorem {H : Type} (fileH h : H) (M P path M2 : String)
    (hagree : selectBucket (upperStr M) = selectBucket M)
    (hmatch : patternMatches P path = true) :
    mainHandler (NewHandleFunc (newWebServer fileH) M P h) ⟨M, path⟩
      = DispatchResult.routed (some h) ∧
    (selectBucket (upperStr M2) ≠ selectBucket M →
     selectBucket (upperStr M2) ≠ Bucket.get →
     mainHandler (NewHandleFunc (newWebServer fileH) M P h) ⟨M2, path⟩
       = DispatchResult.routed none) := by
  constructor
  · have hmain : mainHandler (NewHandleFunc (newWebServer fileH) M P h) ⟨M, path⟩
        = DispatchResult.routed (muxServe
            (mapInsert (if selectBucket M = Bucket.get then [("/", fileH)] else []) P h)
            path) := by
      simp [mainHandler, runGuards, NewHandleFunc, newWebServer, dispatchBucket, hagree]
    rw [hmain]
    by_cases hb : selectBucket M = Bucket.get
    · rw [if_pos hb]
      by_cases hP : P = "/"
      · subst hP
        simp [mapInsert, muxServe, hmatch, pickLongest]
      · have hne : ("/" : String) ≠ P := fun hq => hP hq.symm
        have hins : mapInsert [("/", fileH)] P h = [("/", fileH), (P, h)] := by
          simp [mapInsert, hne]
        rw [hins]
        exact congrArg _ (muxServe_two fileH h P path hP hmatch)
    · rw [if_neg hb]
      simp [mapInsert, muxServe, hmatch, pickLongest]
  · intro hb2 hbg
    have hmw : (NewHandleFunc (newWebServer fileH) M P h).muxes (selectBucket (upperStr M2))
        = [] := by
      simp [NewHandleFunc, newWebServer, hb2, hbg]
    simp [mainHandler, runGuards, NewHandleFunc, newWebServer, dispatchBucket, hb2, hbg,
      muxServe, pickLongest]

/-- Counterexample to C7 as stated: with M = "get" (not canonical case),
registration goes to the catch-all bucket but dispatch uppercases to the
GET bucket, so the registered handler (1) is not invoked — the file
handler (0) is. -/
theorem claim_C7_counterexample :
    mainHandler (NewHandleFunc (newWebServer (0 : Nat)) "get" "/x" 1) ⟨"get", "/x"⟩
      = DispatchResult.routed (some 0) ∧
    mainHandler (NewHandleFunc (newWebServer (0 : Nat)) "get" "/x" 1) ⟨"get", "/x"⟩
      ≠ DispatchResult.routed (some 1) := by
  decide

/-- Witness for the amended C7: registering POST "/x" on a fresh server,
a POST "/x" request invokes the registered handler and a PUT "/x" request
is not-found. -/
theorem claim_C7_witness :
    mainHandler (NewHandleFunc (newWebServer (0 : Nat)) "POST" "/x" 1) ⟨"POST", "/x"⟩
      = DispatchResult.routed (some 1) ∧
    mainHandler (NewHandleFunc (newWebServer (0 : Nat)) "POST" "/x" 1) ⟨"PUT", "/x"⟩
      = DispatchResult.routed none :=
  ⟨(claim_C7_theorem 0 1 "POST" "/x" "/x" "PUT" (by decide) (by decide)).1,
   (claim_C7_theorem 0 1 "POST" "/x" "/x" "PUT" (by decide) (by decide)).2
     (by decide) (by decide)⟩

/-! ## Claims C1, C8, C9: the struct binder -/

theorem queryGet_of_not_has (q : Query) (k : String) (h : queryHas q k = false) :
    queryGet q k = "" := by
  induction q with
  | nil => rfl
  | cons kv rest ih =>
    simp only [queryHas, Bool.or_eq_false_iff] at h
    simp [queryGet, h.1, ih h.2]

theorem emptyStrDecode :
    jsonUnmarshal FieldKind.str (wrapValue FieldKind.str "") = some (ScalarValue.str "") := by
  decide

/-- How the claim relates one bound field to the body: an unexported field
holds the zero value, an absent exported field holds the zero value, and a
present exported field holds the JSON-decoded value. -/
def boundFieldOK (q : Query) (f : GoField) (v : ScalarValue) : Prop :=
  (f.exported = false ∧ v = zeroValue f.kind) ∨
  (f.exported = true ∧ queryHas q f.name = false ∧ v = zeroValue f.kind) ∨
  (f.exported = true ∧ queryHas q f.name = true ∧
    jsonUnmarshal f.kind (wrapValue f.kind (queryGet q f.name)) = some v)

/-- Claim C1, amended (corrected): the struct binder produces a record in
which every present field holds its decoded value and every absent field
holds its zero value, provided every absent exported field is
string-kinded — for a string field the absent value "" decodes (after
quoting) to "", the zero value, but for any other kind the absent value
fails to decode and the binder panics instead (see the counterexample). -/
theorem claim_C1_theorem (fields : List GoField) (q : Query)
    (hpresent : ∀ f ∈ fields, f.exported = true → queryHas q f.name = true →
      (jsonUnmarshal f.kind (wrapValue f.kind (queryGet q f.name))).isSome = true)
    (habsent : ∀ f ∈ fields, f.exported = true → queryHas q f.name = false →
      f.kind = FieldKind.str) :
    ∃ record, bindStruct fields q = some record ∧
      List.Forall₂ (boundFieldOK q) fields record := by
  induction fields with
  | nil => exact ⟨[], rfl, List.Forall₂.nil⟩
  | cons f fs ih =>
    obtain ⟨rec, hrec, hall⟩ := ih
      (fun g hg => hpresent g (List.mem_cons_of_mem _ hg))
      (fun g hg => habsent g (List.mem_cons_of_mem _ hg))
    cases hexp : f.exported with
    | false =>
      have hbf : bindField q f = some (zeroValue f.kind) := by
        unfold bindField
        rw [if_pos hexp]
      exact ⟨zeroValue f.kind :: rec, by simp [bindStruct, hbf, hrec],
        List.Forall₂.cons (Or.inl ⟨hexp, rfl⟩) hall⟩
    | true =>
      cases hq : queryHas q f.name with
      | false =>
        have hkind := habsent f (List.mem_cons_self _ _) hexp hq
        have hbf : bindField q f = some (zeroValue f.kind) := by
          unfold bindField
          rw [if_neg (by simp [hexp]), queryGet_of_not_has q f.name hq, hkind]
          exact emptyStrDecode
        exact ⟨zeroValue f.kind :: rec, by simp [bindStruct, hbf, hrec],
          List.Forall₂.cons (Or.inr (Or.inl ⟨hexp, hq, rfl⟩)) hall⟩
      | true =>
        have hsome := hpresent f (List.mem_cons_self _ _) hexp hq
        obtain ⟨v, hv⟩ := Option.isSome_iff_exists.mp hsome
        have hbf : bindField q f = some v := by
          unfold bindField
          rw [if_neg (by simp [hexp])]
          exact hv
        exact ⟨v :: rec, by simp [bindStruct, hbf, hrec],
          List.Forall₂.cons (Or.inr (Or.inr ⟨hexp, hq, hv⟩)) hall⟩

/-- Counterexample to C1 as stated: a record with a single exported int
field "Age" and an empty body.  The claim says binding yields the record
with Age = 0 (the zero value); the code instead JSON-decodes the empty
string, which fails, so the request panics and no record is produced. -/
theorem claim_C1_counterexample :
    bindStruct [{ name := "Age", exported := true, kind := FieldKind.int }] ([] : Query)
      = none ∧
    bindStruct [{ name := "Age", exported := true, kind := FieldKind.int }] ([] : Query)
      ≠ some [zeroValue FieldKind.int] := by
  decide

/-- Witness for the amended C1: a record {Name string; Age int} with body
"Age=7": Age is present and decodes to 7, Name is absent and string-kinded
so it holds "". -/
theorem claim_C1_witness :
    ∃ record,
      bindStruct
        [{ name := "Name", exported := true, kind := FieldKind.str },
         { name := "Age", exported := true, kind := FieldKind.int }]
        [("Age", "7")] = some record ∧
      List.Forall₂ (boundFieldOK [("Age", "7")])
        [{ name := "Name", exported := true, kind := FieldKind.str },
         { name := "Age", exported := true, kind := FieldKind.int }] record :=
  claim_C1_theorem _ _ (by decide) (by decide)

/-- Claim C8 (confirmed): `NewURLBodyHandler` panics at registration time
exactly when the target type's kind is not a struct; for a struct type
registration succeeds and the registered per-request handler is the plain
field binder, which re-checks nothing about the kind. -/
theorem claim_C8_theorem (t : GoType) :
    (newURLBodyHandler t = none ↔ goKind t ≠ GoKind.structKind) ∧
    (∀ fields, t = GoType.structT fields →
      newURLBodyHandler t = some (bindStruct fields)) := by
  constructor
  · constructor
    · intro h
      by_contra hk
      unfold newURLBodyHandler at h
      rw [if_neg (not_not_intro hk)] at h
      exact Option.noConfusion h
    · intro hk
      unfold newURLBodyHandler
      rw [if_pos hk]
  · intro fields hf
    subst hf
    unfold newURLBodyHandler
    rw [if_neg (by simp [goKind])]
    rfl

/-- Witness for C8: the struct type with no fields registers successfully
and its request handler is the binder over the empty field list. -/
theorem claim_C8_witness :
    newURLBodyHandler (GoType.structT ([] : List GoField)) = some (bindStruct []) :=
  (claim_C8_theorem (GoType.structT [])).2 [] rfl

/-- Claim C9 (confirmed): if any exported field is present in the body
with a value that fails structured-value decoding for the field's kind,
the struct binder panics (produces no record and hence writes no 400 —
its embedding has no response-writing path at all, matching the source,
which never calls badRequest). -/
theorem claim_C9_theorem (fields : List GoField) (q : Query) (f : GoField)
    (hmem : f ∈ fields) (hexp : f.exported = true)
    (_hhas : queryHas q f.name = true)
    (hfail : jsonUnmarshal f.kind (wrapValue f.kind (queryGet q f.name)) = none) :
    bindStruct fields q = none := by
  induction fields with
  | nil => cases hmem
  | cons g fs ih =>
    rcases List.mem_cons.mp hmem with rfl | hmem2
    · have hbf : bindField q f = none := by
        unfold bindField
        rw [if_neg (by simp [hexp])]
        exact hfail
      simp [bindStruct, hbf]
    · have hrest := ih hmem2
      cases hbg : bindField q g
      · simp [bindStruct, hbg]
      · simp [bindStruct, hbg, hrest]

/-- Witness for C9: field "Age" (int) with body "Age=abc" — the decode
fails and binding panics. -/
theorem claim_C9_witness :
    bindStruct [{ name := "Age", exported := true, kind := FieldKind.int }]
      [("Age", "abc")] = none :=
  claim_C9_theorem _ _ { name := "Age", exported := true, kind := FieldKind.int }
    (List.mem_singleton.mpr rfl) rfl (by decide) (by decide)
